import Mathlib

/-!
Shallow embedding of the slowdash `slowapi` router
(`src/main/server/slowapi/router.py`): route-descriptor compilation
(`PathRule.__init__`), request matching (`PathRule.match`), router
composition and dispatch (`App.slowapi`, `App.slowapi_prepend`,
`App.slowapi_append`), the decorators (`get`, `post`, `delete`) and the
WSGI adapter (`App.__call__`).  The collaborator classes `Request`,
`Response` and the JSON document wrapper live in files that are not part
of the sources, so they are modelled from the spec where needed.
-/

namespace Slowapi

/-- The Python type annotations that the router inspects: `Request`,
`bytes`, `JSON`, `DictJSON`, `list`, `dict`, plus the plain-parameter
types `int` and `str`, and `empty` for an unannotated parameter. -/
inductive PyType where
  | empty
  | requestT
  | bytesT
  | jsonT
  | dictJsonT
  | listT
  | dictT
  | intT
  | strT
deriving DecidableEq

/-- Modelled from the spec: the Request value (`request.py` is not under
`src/`): method, path segments (split on '/' with empties dropped),
single-valued query map, optional raw body, and the mutable `aborted`
flag shared across one dispatch traversal. -/
structure Request where
  method : String
  path : List String
  query : List (String × String)
  body : Option (List Nat)
  aborted : Bool
deriving DecidableEq

/-- Modelled from the spec: `Request.abort()` sets the aborted flag;
once set it is never cleared. -/
def Request.abort (r : Request) : Request :=
  { r with aborted := true }

/-- Python run-time values that can appear as bound handler arguments:
`None`, strings (raw path/query values), integers (coerced), raw bytes,
the deep-copied path list and query dict, the decoded JSON document
wrapper, and the request object itself. -/
inductive PyVal where
  | vNone
  | vStr (s : String)
  | vInt (n : Int)
  | vBytes (b : List Nat)
  | vStrList (xs : List String)
  | vStrDict (d : List (String × String))
  | vDoc (v : PyVal)
  | vRequest (r : Request)
deriving DecidableEq

/-- Python dict lookup `d.get(k)` (first binding wins; inserts keep keys
unique, see `dinsert`). -/
def dget {κ α : Type} [DecidableEq κ] : List (κ × α) → κ → Option α
  | [], _ => none
  | (k0, v0) :: rest, k => if k0 = k then some v0 else dget rest k

/-- Python dict assignment `d[k] = v`: overwrite in place if the key is
present, otherwise append. -/
def dinsert {κ α : Type} [DecidableEq κ] : List (κ × α) → κ → α → List (κ × α)
  | [], k, v => [(k, v)]
  | (k0, v0) :: rest, k, v =>
      if k0 = k then (k0, v) :: rest else (k0, v0) :: dinsert rest k v

/-- Python `d.update(e)`: assign every binding of `e` into `d`, in
order, so later bindings of `e` win over `d` and over earlier ones. -/
def dupdate {κ α : Type} [DecidableEq κ] (d e : List (κ × α)) : List (κ × α) :=
  e.foldl (fun acc kv => dinsert acc kv.1 kv.2) d

/-- One entry of `PathRule.param_attributes`: the declared type
annotation and the declared default (`none` = `inspect._empty`). -/
structure Param where
  annot : PyType
  default : Option PyVal
deriving DecidableEq

/-- One declared parameter of a handler signature, as `inspect.signature`
exposes it: name, annotation, default. -/
structure SigParam where
  name : String
  annot : PyType
  default : Option PyVal
deriving DecidableEq

/-- The compiled route descriptor, mirroring the fields set by
`PathRule.__init__`: `path` stores `none` at placeholder positions
(`self.path[pos] = None`), `path_params` maps those positions to the
placeholder names, and the remaining fields record the special
parameter roles. -/
structure PathRule where
  rule_str : String
  method : String
  status_code : Nat
  path : List (Option String)
  path_params : List (Nat × String)
  param_attributes : List (String × Param)
  take_extra_path : Bool
  bytes_body_param : Option String
  json_body_param : Option String
  request_param : Option String
  path_param : Option String
  query_param : Option String
deriving DecidableEq

/-- Python `s.split(sep)` for a one-character separator, character by
character (the standard-library string splitter is not
kernel-reducible). -/
def splitCharAux (c : Char) : List Char → List Char → List String
  | [], acc => [String.mk acc.reverse]
  | x :: xs, acc =>
    if x = c then String.mk acc.reverse :: splitCharAux c xs []
    else splitCharAux c xs (x :: acc)

/-- `rule.split('/')`. -/
def pySplit (s : String) (c : Char) : List String :=
  splitCharAux c s.data []

/-- `s.upper()` over the character list. -/
def pyUpper (s : String) : String :=
  String.mk (s.data.map Char.toUpper)

/-- `len(elem) > 2 and elem[0] == '\x7b' and elem[-1] == '\x7d'`:
the placeholder test used in `PathRule.__init__`. -/
def isPlaceholder (e : String) : Bool :=
  decide (e.data.length > 2) && decide (e.data.head? = some '{')
    && decide (e.data.getLast? = some '}')

/-- `elem[1:-1]`: the name inside a placeholder segment. -/
def placeName (e : String) : String :=
  String.mk (e.data.drop 1).dropLast

/-- One step of the parameter-classification loop of
`PathRule.__init__` (router.py lines 46-61): route the parameter into
its special role by annotation, or into `param_attributes`. -/
def classifyStep (r : PathRule) (p : SigParam) : PathRule :=
  match p.annot with
  | .requestT => { r with request_param := some p.name }
  | .bytesT => { r with bytes_body_param := some p.name }
  | .jsonT => { r with json_body_param := some p.name }
  | .dictJsonT => { r with json_body_param := some p.name }
  | .listT => { r with path_param := some p.name }
  | .dictT => { r with query_param := some p.name }
  | _ => { r with param_attributes := dinsert r.param_attributes p.name ⟨p.annot, p.default⟩ }

/-- `PathRule.__init__`: split the rule on '/', drop empties, strip a
trailing wildcard marker, record placeholder positions, and classify
each signature parameter (skipping `self`) into its special role or
into `param_attributes`. -/
def PathRule.build (rule : String) (method : String) (sig : List SigParam)
    (status_code : Nat) : PathRule :=
  let segs0 := (pySplit rule '/').filter (fun e => e.data.length > 0)
  let tep : Bool := segs0.getLast? = some "{*}"
  let segs1 := if tep then segs0.dropLast else segs0
  let path := segs1.map (fun e => if isPlaceholder e then none else some e)
  let pparams := segs1.enum.filterMap
    (fun pe => if isPlaceholder pe.2 then some (pe.1, placeName pe.2) else none)
  let r0 : PathRule :=
    { rule_str := rule, method := pyUpper method, status_code := status_code,
      path := path, path_params := pparams, param_attributes := [],
      take_extra_path := tep, bytes_body_param := none, json_body_param := none,
      request_param := none, path_param := none, query_param := none }
  (sig.drop 1).foldl classifyStep r0

/-- The length-policy block of `PathRule.match` (router.py lines 79-86):
equal lengths pass; a longer request passes only with a wildcard tail; a
shorter request passes only if every pattern position from the request
length on is a placeholder. -/
def lengthCheck (r : PathRule) (req : Request) : Bool :=
  if req.path.length = r.path.length then true
  else if req.path.length > r.path.length && !r.take_extra_path then false
  else (r.path.drop req.path.length).all Option.isNone

/-- The segment loop of `PathRule.match` (lines 88-98): positions past
the pattern are skipped, placeholder positions capture the request
segment under `path_params[pos]` (a missing entry is a Python
`KeyError`, the `.error` case), literal positions must match exactly. -/
def captureSegs (r : PathRule) :
    List String → Nat → List (String × String) → Except Unit (Option (List (String × String)))
  | [], _, acc => .ok (some acc)
  | v :: rest, pos, acc =>
    if pos ≥ r.path.length then captureSegs r rest (pos + 1) acc
    else match r.path.get? pos with
      | some none =>
          match dget r.path_params pos with
          | some name => captureSegs r rest (pos + 1) (dinsert acc name v)
          | none => .error ()
      | some (some lit) =>
          if lit = v then captureSegs r rest (pos + 1) acc else .ok none
      | none => captureSegs r rest (pos + 1) acc

/-- The working value map of `PathRule.match` (lines 89-100): captured
path placeholder values overlaid by the query map
(`params.update(request.query)`), so query values win on collision. -/
def workingParams (r : PathRule) (req : Request) :
    Except Unit (Option (List (String × String))) :=
  match captureSegs r req.path 0 [] with
  | .error e => .error e
  | .ok none => .ok none
  | .ok (some captured) => .ok (some (dupdate captured req.query))

/-- A nonempty all-digit character list as a number; otherwise `none`. -/
def digitsToNat? (cs : List Char) : Option Nat :=
  if !cs.isEmpty && cs.all Char.isDigit then
    some (cs.foldl (fun n c => 10 * n + (c.toNat - 48)) 0)
  else none

/-- Python `int(s)` on a string: strip surrounding whitespace, allow an
optional sign, then decimal digits; anything else raises (here:
`none`). -/
def pyInt (s : String) : Option Int :=
  match ((s.data.dropWhile Char.isWhitespace).reverse.dropWhile Char.isWhitespace).reverse with
  | '-' :: ds => (digitsToNat? ds).map (fun n => -(n : Int))
  | '+' :: ds => (digitsToNat? ds).map (fun n => (n : Int))
  | ds => (digitsToNat? ds).map (fun n => (n : Int))

/-- Python `str(v)` for the values that can reach plain-parameter
coercion. -/
def pyStr : PyVal → String
  | .vStr s => s
  | .vInt n => toString n
  | .vNone => "None"
  | _ => "object"

/-- `attr.annotation(value)` for plain parameters: invoking the declared
type as a one-argument constructor; `none` models a raised exception
(e.g. `int` of a non-numeric string). -/
def coerce : PyType → PyVal → Option PyVal
  | .intT, .vStr s => (pyInt s).map .vInt
  | .intT, .vInt n => some (.vInt n)
  | .strT, v => some (.vStr (pyStr v))
  | _, _ => none

/-- The body of one iteration of the plain-parameter loop (lines
104-115): look the name up in the working map, fall back to the declared
default, and coerce any non-None value through a declared annotation;
`none` is a coercion failure. -/
def boundValue (attr : Param) (mv : Option String) : Option PyVal :=
  let v0 : PyVal := match mv with
    | some s => .vStr s
    | none => .vNone
  let v1 : PyVal := if v0 = .vNone then attr.default.getD .vNone else v0
  if v1 ≠ .vNone ∧ attr.annot ≠ .empty then coerce attr.annot v1 else some v1

/-- The plain-parameter loop of `PathRule.match` (lines 102-115): bind
every `param_attributes` entry in order; the first coercion failure
makes the whole match fail (`none`, logged as a warning). -/
def bindPlain (params : List (String × String)) :
    List (String × Param) → List (String × PyVal) → Option (List (String × PyVal))
  | [], acc => some acc
  | (pname, attr) :: rest, acc =>
    match boundValue attr (dget params pname) with
    | none => none
    | some v => bindPlain params rest (dinsert acc pname v)

/-- The outcome of `PathRule.match`: an uncaught Python `KeyError`, no
match (`None`, with the flag recording whether a coercion-failure
warning was logged on the way), or a successful argument map. -/
inductive MatchOut where
  | keyError
  | noMatch (warned : Bool)
  | matched (kwargs : List (String × PyVal))
deriving DecidableEq

/-- `request.body` as the value bound to a raw-body-bytes parameter. -/
def bodyVal : Option (List Nat) → PyVal
  | some b => .vBytes b
  | none => .vNone

/-- The tail of `PathRule.match` (lines 129-134): bind the full-path and
full-query special parameters (deep copies) and return the kwargs. -/
def finishSpecials (r : PathRule) (req : Request)
    (kwargs : List (String × PyVal)) : MatchOut :=
  let k1 := match r.path_param with
    | some p => dinsert kwargs p (.vStrList req.path)
    | none => kwargs
  let k2 := match r.query_param with
    | some p => dinsert k1 p (.vStrDict req.query)
    | none => k1
  .matched k2

/-- `PathRule.match` (router.py lines 70-134), parameterised by the JSON
document collaborator `decode` (`JSON(...)`/`DictJSON(...)` then
`.value()`, modelled from the spec: `none` on parse failure or literal
null).  Note the faithful `KeyError`: line 123 looks the JSON body
parameter up in `param_attributes`, where it was never stored. -/
def PathRule.pmatch (decode : PyType → Option (List Nat) → Option PyVal)
    (r : PathRule) (req : Request) : MatchOut :=
  if req.aborted then .noMatch false
  else if req.method ≠ r.method then .noMatch false
  else if !lengthCheck r req then .noMatch false
  else match workingParams r req with
  | .error _ => .keyError
  | .ok none => .noMatch false
  | .ok (some params) =>
    match bindPlain params r.param_attributes [] with
    | none => .noMatch true
    | some kwargs0 =>
      let kwargs1 := match r.request_param with
        | some p => dinsert kwargs0 p (.vRequest req)
        | none => kwargs0
      let kwargs2 := match r.bytes_body_param with
        | some p => dinsert kwargs1 p (bodyVal req.body)
        | none => kwargs1
      match r.json_body_param with
      | some p =>
        match dget r.param_attributes p with
        | none => .keyError
        | some attr =>
          match decode attr.annot req.body with
          | none => .noMatch false
          | some v => finishSpecials r req (dinsert kwargs2 p (.vDoc v))
      | none => finishSpecials r req kwargs2

/-- Modelled from the spec: the Response value (`response.py` is not
under `src/`): status code defaulting to 200, header map and
accumulated content. -/
structure Response where
  status_code : Nat
  headers : List (String × String)
  content : List PyVal
deriving DecidableEq

/-- `Response()`: the empty aggregate response. -/
def Response.empty : Response := ⟨200, [], []⟩

/-- `Response(status_code=c)`: a fresh partial response carrying the
descriptor's default status code. -/
def Response.mkStatus (c : Nat) : Response := ⟨c, [], []⟩

/-- Modelled from the spec: merging a handler's raw return value into a
partial response — `None` contributes nothing, a list extends the
content, any other value is appended. -/
def Response.appendVal (r : Response) (v : PyVal) : Response :=
  match v with
  | .vNone => r
  | .vStrList xs => { r with content := r.content ++ xs.map PyVal.vStr }
  | v => { r with content := r.content ++ [v] }

/-- Modelled from the spec: merging a partial response into the running
aggregate — content accumulates in merge order, a non-default incoming
status overrides the running one, headers are unioned with later values
winning. -/
def Response.appendResp (r other : Response) : Response :=
  { status_code := if other.status_code ≠ 200 then other.status_code else r.status_code,
    headers := dupdate r.headers other.headers,
    content := r.content ++ other.content }

/-- One registered handler: its compiled `PathRule` and the bound
method itself, which receives the kwargs and the shared request (which
it may abort) and returns its Python return value. -/
structure HandlerEntry where
  rule : PathRule
  fn : List (String × PyVal) → Request → Request × PyVal

/-- The router: its own ordered handlers, the prepended sub-router list
and the appended sub-router list (`App.__init__`). -/
inductive App where
  | mk (handlers : List HandlerEntry) (prepended : List App) (appended : List App)

def App.handlers : App → List HandlerEntry
  | .mk hs _ _ => hs

def App.prepended : App → List App
  | .mk _ pre _ => pre

def App.appended : App → List App
  | .mk _ _ post => post

/-- `App.slowapi_prepend`: `self.slowapi_prepended_apps.insert(0, app)`. -/
def App.slowapi_prepend : App → App → App
  | .mk hs pre post, child => .mk hs (child :: pre) post

/-- `App.slowapi_append`: `self.slowapi_appended_apps.append(app)`. -/
def App.slowapi_append : App → App → App
  | .mk hs pre post, child => .mk hs pre (post ++ [child])

/-- The own-handler loop of `App.slowapi` (router.py lines 205-210):
each rule is matched in declaration order; a match invokes the handler
(possibly mutating the shared request), wraps its return value in a
response carrying the rule's default status code, and merges it into
the running aggregate; an uncaught `KeyError` from `match` propagates. -/
def slowapiHandlers (decode : PyType → Option (List Nat) → Option PyVal) :
    List HandlerEntry → Request → Response → Except Unit (Request × Response)
  | [], req, resp => .ok (req, resp)
  | h :: rest, req, resp =>
    match h.rule.pmatch decode req with
    | .keyError => .error ()
    | .noMatch _ => slowapiHandlers decode rest req resp
    | .matched args =>
      let step := h.fn args req
      let this := (Response.mkStatus h.rule.status_code).appendVal step.2
      slowapiHandlers decode rest step.1 (resp.appendResp this)

mutual

/-- `App.slowapi` (router.py lines 191-215): dispatch the prepended
sub-routers in list order, then the router's own handlers, then the
appended sub-routers, merging every partial response into one aggregate
over the shared (mutable) request. -/
def App.slowapi (decode : PyType → Option (List Nat) → Option PyVal) :
    App → Request → Except Unit (Request × Response)
  | .mk hs pre post, req => do
    let s1 ← slowapiList decode pre req Response.empty
    let s2 ← slowapiHandlers decode hs s1.1 s1.2
    slowapiList decode post s2.1 s2.2

/-- The sub-router loops of `App.slowapi` (lines 202-203 and 212-213):
`response.append(app.slowapi(request))` over a list of child apps. -/
def slowapiList (decode : PyType → Option (List Nat) → Option PyVal) :
    List App → Request → Response → Except Unit (Request × Response)
  | [], req, resp => .ok (req, resp)
  | a :: rest, req, resp => do
    let s ← App.slowapi decode a req
    slowapiList decode rest s.1 (resp.appendResp s.2)

end

/-- Modelled from the spec: the reason phrase the response renderer
pairs with a status code. -/
def reasonPhrase : Nat → String
  | 200 => "OK"
  | 201 => "Created"
  | 400 => "Bad Request"
  | 404 => "Not Found"
  | 507 => "Insufficient Storage"
  | _ => "Unknown"

/-- Modelled from the spec: `Response.get_status()` — the status code
paired with its reason phrase. -/
def Response.get_status (r : Response) : String :=
  toString r.status_code ++ " " ++ reasonPhrase r.status_code

/-- The uncaught Python exceptions the embedded code can raise: the
`UnboundLocalError` raised by the WSGI adapter's logging line when the
content length fails to parse, and the `KeyError` raised by
`PathRule.match` on a JSON-body route. -/
inductive PyErr where
  | unboundLocal
  | keyError
deriving DecidableEq

/-- The WSGI `environ` pieces `App.__call__` reads: `REQUEST_METHOD`,
`CONTENT_LENGTH`, the `wsgi.input` byte stream, and the request URI
computed by `wsgiref.util.request_uri`. -/
structure Environ where
  requestMethod : Option String
  contentLength : Option String
  wsgiInput : List Nat
  url : String

/-- `App.__call__` (router.py lines 239-264), parameterised by the
`Request` constructor (`request.py` is not under `src/`) and by the
dispatch routine; the result is the rendered status line, header list
and content handed to `start_response`/returned.  Faithful detail: when
`int(environ.get('CONTENT_LENGTH', ''))` raises, the `except` branch's
logging f-string reads the local `content_length`, which was never
assigned, so the handler raises `UnboundLocalError` instead of
delivering the intended `400 Bad Request`. -/
def wsgiCall (mkReq : String → String → Option (List Nat) → Request)
    (dispatch : Request → Except PyErr Response) (env : Environ) :
    Except PyErr (String × List (String × String) × List PyVal) :=
  let url := env.url
  let method := env.requestMethod.getD "GET"
  if method = "POST" then
    match pyInt (env.contentLength.getD "") with
    | none => .error .unboundLocal
    | some n =>
      if n > 1024 * 1024 * 1024 then .ok ("507 Insufficient Storage", [], [])
      else
        let body := if n > 0 then some (env.wsgiInput.take n.toNat) else none
        match dispatch (mkReq url method body) with
        | .error e => .error e
        | .ok resp => .ok (resp.get_status, resp.headers, resp.content)
  else
    match dispatch (mkReq url method none) with
    | .error e => .error e
    | .ok resp => .ok (resp.get_status, resp.headers, resp.content)

/-- The `@slowapi.get(path_rule)` decorator applied without an explicit
`status_code` argument: compiles a GET descriptor with the default
status code 200. -/
def get (path_rule : String) (sig : List SigParam) : PathRule :=
  PathRule.build path_rule "GET" sig 200

/-- The `@slowapi.post(path_rule)` decorator applied without an explicit
`status_code` argument: compiles a POST descriptor with the default
status code 201. -/
def post (path_rule : String) (sig : List SigParam) : PathRule :=
  PathRule.build path_rule "POST" sig 201

/-- The `@slowapi.delete(path_rule)` decorator applied without an
explicit `status_code` argument: compiles a DELETE descriptor with the
default status code 200. -/
def delete (path_rule : String) (sig : List SigParam) : PathRule :=
  PathRule.build path_rule "DELETE" sig 200

/-- A filterMap view of the own-handler loop: the partial response a
handler contributes when its rule matches (`Response(status_code=...)`
followed by `append` of the handler's return value), or `none` when its
rule does not match. -/
def wrapFired (decode : PyType → Option (List Nat) → Option PyVal)
    (req : Request) (h : HandlerEntry) : Option Response :=
  match h.rule.pmatch decode req with
  | .matched args => some ((Response.mkStatus h.rule.status_code).appendVal (h.fn args req).2)
  | _ => none

/-! Concrete fixtures used by the claim theorems. -/

/-- A trivial instance of the JSON document collaborator (always "no
value"), for closed statements. -/
def decode0 : PyType → Option (List Nat) → Option PyVal :=
  fun _ _ => none

/-- The implicit `self` parameter of a handler method. -/
def selfP : SigParam := ⟨"self", .empty, none⟩

/-- `@slowapi.get('/hello')` on a zero-argument handler, as in the
repository's test app. -/
def helloRule : PathRule := get "/hello" [selfP]

/-- `GET /hello` with no query and no body. -/
def helloReq : Request := ⟨"GET", ["hello"], [], none, false⟩

/-- A single-handler router whose handler returns the given label. -/
def labelApp (lbl : String) : App :=
  .mk [⟨helloRule, fun _ req => (req, .vStr lbl)⟩] [] []

/-- Router R with own handler H, sub-router B prepended first, then
sub-router A prepended, then sub-router C appended — the composition of
the spec's ordering test, with label-returning handlers. -/
def composedR (b a h c : String) : App :=
  (((App.mk [⟨helloRule, fun _ req => (req, .vStr h)⟩] [] []).slowapi_prepend
      (labelApp b)).slowapi_prepend (labelApp a)).slowapi_append (labelApp c)

/-- A router whose handlers, on `GET /hello`, return "one", then abort
the request returning `None`, then would return "three"; one sub-router
is appended after them. -/
def abortApp : App :=
  .mk [⟨helloRule, fun _ req => (req, .vStr "one")⟩,
       ⟨helloRule, fun _ req => (req.abort, .vNone)⟩,
       ⟨helloRule, fun _ req => (req, .vStr "three")⟩]
    [] [labelApp "C"]

/-- `@slowapi.get('/files/\x7b*\x7d')` on a zero-argument handler. -/
def filesRule : PathRule := get "/files/{*}" [selfP]

/-- `GET /files/a/b/c`. -/
def filesReq : Request := ⟨"GET", ["files", "a", "b", "c"], [], none, false⟩

/-- `GET /other/a/b/c`. -/
def otherReq : Request := ⟨"GET", ["other", "a", "b", "c"], [], none, false⟩

/-- `@slowapi.get('/s/\x7bx\x7d')` on a handler with an untyped
parameter `x` defaulting to "d". -/
def shortRule : PathRule := get "/s/{x}" [selfP, ⟨"x", .empty, some (.vStr "d")⟩]

/-- `GET /s`: one segment shorter than `shortRule`'s pattern. -/
def shortReq : Request := ⟨"GET", ["s"], [], none, false⟩

/-- `@slowapi.get('/fixed')` on a handler whose parameter `x` declares
type `str` and default `5` (the integer). -/
def defRule : PathRule := get "/fixed" [selfP, ⟨"x", .strT, some (.vInt 5)⟩]

/-- `GET /fixed` with no query: `x` is absent from the working map. -/
def defReq : Request := ⟨"GET", ["fixed"], [], none, false⟩

/-- `@slowapi.get('/\x7bn\x7d')` on a handler whose parameter `n`
declares type `int`. -/
def intRule : PathRule := get "/{n}" [selfP, ⟨"n", .intT, none⟩]

/-- `@slowapi.get('/\x7bs\x7d')` on a handler with an untyped
parameter `s`. -/
def anyRule : PathRule := get "/{s}" [selfP, ⟨"s", .empty, none⟩]

/-- `GET /abc`: the segment "abc" is not coercible to `int`. -/
def contReq : Request := ⟨"GET", ["abc"], [], none, false⟩

/-- A router declaring the `int`-typed descriptor first and an untyped
one after it. -/
def contApp : App :=
  .mk [⟨intRule, fun _ req => (req, .vStr "first")⟩,
       ⟨anyRule, fun _ req => (req, .vStr "second")⟩]
    [] []

/-- `@slowapi.get('/\x7bx\x7d')` on a handler whose parameter `x`
declares type `int`. -/
def xRule : PathRule := get "/{x}" [selfP, ⟨"x", .intT, none⟩]

/-- `GET /5?x=9`: path captures `x = "5"`, query carries `x = "9"`. -/
def xReq : Request := ⟨"GET", ["5"], [("x", "9")], none, false⟩

/-- A router with two descriptors that both match `GET /hello`. -/
def multiHs : List HandlerEntry :=
  [⟨helloRule, fun _ req => (req, .vStr "m1")⟩,
   ⟨helloRule, fun _ req => (req, .vStr "m2")⟩]

/-- `@slowapi.post('/make')` (no explicit status code) on a handler
returning "made". -/
def postHandler : HandlerEntry :=
  ⟨post "/make" [selfP], fun _ req => (req, .vStr "made")⟩

/-- `POST /make` with no body. -/
def postReq : Request := ⟨"POST", ["make"], [], none, false⟩

/-- `@slowapi.post('/doc')` on a handler whose parameter `d` is
annotated `JSON` (a raw-body-as-document parameter). -/
def jsonRule : PathRule := post "/doc" [selfP, ⟨"d", .jsonT, none⟩]

/-- `POST /doc` with body `b'\x7b\x7d'`. -/
def jsonReq : Request := ⟨"POST", ["doc"], [], some [123, 125], false⟩

/-- A POST exchange declaring `CONTENT_LENGTH: abc`. -/
def envBadLen : Environ := ⟨some "POST", some "abc", [], "http://host/x"⟩

/-- A POST exchange declaring a 2 GB content length. -/
def envHugeLen : Environ := ⟨some "POST", some "2000000000", [], "http://host/x"⟩

/-- A POST exchange declaring `CONTENT_LENGTH: -5`. -/
def envNegLen : Environ := ⟨some "POST", some "-5", [], "http://host/x"⟩

/-! Helper lemmas about the dict operations. -/

theorem dget_dinsert_self {κ α : Type} [DecidableEq κ] (d : List (κ × α)) (k : κ) (v : α) :
    dget (dinsert d k v) k = some v := by
  induction d with
  | nil => simp [dinsert, dget]
  | cons kv rest ih =>
    obtain ⟨k0, v0⟩ := kv
    by_cases h : k0 = k
    · simp [dinsert, dget, h]
    · simp [dinsert, dget, h, ih]

theorem dget_dinsert_ne {κ α : Type} [DecidableEq κ] (d : List (κ × α)) (k' k : κ) (v : α)
    (h : k' ≠ k) : dget (dinsert d k' v) k = dget d k := by
  induction d with
  | nil => simp [dinsert, dget, h]
  | cons kv rest ih =>
    obtain ⟨k0, v0⟩ := kv
    by_cases h0 : k0 = k'
    · subst h0
      simp [dinsert, dget, h]
    · by_cases h1 : k0 = k
      · simp [dinsert, dget, h0, h1, Ne.symm h]
      · simp [dinsert, dget, h0, h1, ih]

theorem dupdate_cons {κ α : Type} [DecidableEq κ] (d : List (κ × α)) (kv : κ × α)
    (e : List (κ × α)) : dupdate d (kv :: e) = dupdate (dinsert d kv.1 kv.2) e := rfl

theorem dget_dupdate_not_mem {κ α : Type} [DecidableEq κ] (d e : List (κ × α)) (k : κ)
    (h : k ∉ e.map Prod.fst) : dget (dupdate d e) k = dget d k := by
  induction e generalizing d with
  | nil => rfl
  | cons kv rest ih =>
    simp only [List.map_cons, List.mem_cons, not_or] at h
    rw [dupdate_cons, ih _ h.2, dget_dinsert_ne _ _ _ _ (Ne.symm h.1)]

theorem dget_dupdate_right {κ α : Type} [DecidableEq κ] (d e : List (κ × α)) (k : κ)
    (hnd : (e.map Prod.fst).Nodup) (hk : (dget e k).isSome = true) :
    dget (dupdate d e) k = dget e k := by
  induction e generalizing d with
  | nil => simp [dget] at hk
  | cons kv rest ih =>
    obtain ⟨k0, v0⟩ := kv
    simp only [List.map_cons, List.nodup_cons] at hnd
    rw [dupdate_cons]
    by_cases h : k0 = k
    · subst h
      rw [dget_dupdate_not_mem _ _ _ hnd.1, dget_dinsert_self]
      simp [dget]
    · have hk' : (dget rest k).isSome = true := by
        simpa [dget, h] using hk
      rw [ih _ hnd.2 hk']
      simp [dget, h]

/-! Helper lemmas about matching and dispatch on an aborted request. -/

theorem aborted_pmatch (decode : PyType → Option (List Nat) → Option PyVal)
    (r : PathRule) (req : Request) (h : req.aborted = true) :
    r.pmatch decode req = .noMatch false := by
  simp [PathRule.pmatch, h]

theorem aborted_handlers (decode : PyType → Option (List Nat) → Option PyVal)
    (hs : List HandlerEntry) (req : Request) (resp : Response) (h : req.aborted = true) :
    slowapiHandlers decode hs req resp = .ok (req, resp) := by
  induction hs with
  | nil => rfl
  | cons h0 rest ih =>
    simp [slowapiHandlers, aborted_pmatch decode h0.rule req h, ih]

theorem appendResp_empty (r : Response) : r.appendResp Response.empty = r := by
  simp [Response.appendResp, Response.empty, dupdate]

mutual

theorem aborted_slowapi (decode : PyType → Option (List Nat) → Option PyVal)
    (a : App) (req : Request) (h : req.aborted = true) :
    App.slowapi decode a req = .ok (req, Response.empty) :=
  match a with
  | .mk hs pre post => by
    simp only [App.slowapi]
    rw [aborted_slowapiList decode pre req Response.empty h]
    simp only [bind, Except.bind]
    rw [aborted_handlers decode hs req Response.empty h]
    exact aborted_slowapiList decode post req Response.empty h

theorem aborted_slowapiList (decode : PyType → Option (List Nat) → Option PyVal)
    (l : List App) (req : Request) (resp : Response) (h : req.aborted = true) :
    slowapiList decode l req resp = .ok (req, resp) :=
  match l with
  | [] => rfl
  | a :: rest => by
    simp only [slowapiList]
    rw [aborted_slowapi decode a req h]
    simp only [bind, Except.bind]
    rw [appendResp_empty]
    exact aborted_slowapiList decode rest req resp h

end

/-! Helper lemmas about the plain-parameter loop. -/

theorem bindPlain_fail (params : List (String × String)) (attrs : List (String × Param))
    (acc : List (String × PyVal))
    (h : ∃ pa ∈ attrs, boundValue pa.2 (dget params pa.1) = none) :
    bindPlain params attrs acc = none := by
  induction attrs generalizing acc with
  | nil => simp at h
  | cons pa rest ih =>
    obtain ⟨p0, a0⟩ := pa
    obtain ⟨qa, hq, hfail⟩ := h
    rcases List.mem_cons.mp hq with rfl | hmem
    · simp [bindPlain, hfail]
    · cases hbv : boundValue a0 (dget params p0) with
      | none => simp [bindPlain, hbv]
      | some v =>
        simp only [bindPlain, hbv]
        exact ih _ ⟨qa, hmem, hfail⟩

theorem bindPlain_dget_of_not_mem (params : List (String × String))
    (attrs : List (String × Param)) (acc kwargs : List (String × PyVal)) (k : String)
    (hnm : k ∉ attrs.map Prod.fst)
    (hrun : bindPlain params attrs acc = some kwargs) :
    dget kwargs k = dget acc k := by
  induction attrs generalizing acc with
  | nil =>
    simp only [bindPlain, Option.some.injEq] at hrun
    rw [← hrun]
  | cons pa rest ih =>
    obtain ⟨p0, a0⟩ := pa
    simp only [List.map_cons, List.mem_cons, not_or] at hnm
    cases hbv : boundValue a0 (dget params p0) with
    | none => simp [bindPlain, hbv] at hrun
    | some v =>
      simp only [bindPlain, hbv] at hrun
      rw [ih _ hnm.2 hrun, dget_dinsert_ne _ _ _ _ (Ne.symm hnm.1)]

theorem bindPlain_dget_mem (params : List (String × String)) (attrs : List (String × Param))
    (acc kwargs : List (String × PyVal)) (pname : String) (attr : Param)
    (hnd : (attrs.map Prod.fst).Nodup)
    (hmem : (pname, attr) ∈ attrs)
    (hrun : bindPlain params attrs acc = some kwargs) :
    some (dget kwargs pname) = (boundValue attr (dget params pname)).map some := by
  induction attrs generalizing acc with
  | nil => cases hmem
  | cons pa rest ih =>
    obtain ⟨p0, a0⟩ := pa
    simp only [List.map_cons, List.nodup_cons] at hnd
    rcases List.mem_cons.mp hmem with heq | hmem2
    · obtain ⟨rfl, rfl⟩ := Prod.mk.injEq .. ▸ heq
      cases hbv : boundValue attr (dget params pname) with
      | none => simp [bindPlain, hbv] at hrun
      | some v =>
        simp only [bindPlain, hbv] at hrun
        rw [bindPlain_dget_of_not_mem _ _ _ _ _ hnd.1 hrun, dget_dinsert_self]
        rfl
    · cases hbv : boundValue a0 (dget params p0) with
      | none => simp [bindPlain, hbv] at hrun
      | some v =>
        simp only [bindPlain, hbv] at hrun
        exact ih _ hnd.2 hmem2 hrun

/-! Helper lemmas about the own-handler loop and the compiler. -/

theorem slowapiHandlers_spec (decode : PyType → Option (List Nat) → Option PyVal)
    (hs : List HandlerEntry) (req : Request) (resp : Response)
    (hpure : ∀ h ∈ hs, ∀ args r, (h.fn args r).1 = r)
    (hkey : ∀ h ∈ hs, h.rule.pmatch decode req ≠ .keyError) :
    slowapiHandlers decode hs req resp
      = .ok (req, (hs.filterMap (wrapFired decode req)).foldl Response.appendResp resp) := by
  induction hs generalizing resp with
  | nil => rfl
  | cons h0 rest ih =>
    have hpure' : ∀ h ∈ rest, ∀ args r, (h.fn args r).1 = r :=
      fun h hm => hpure h (List.mem_cons_of_mem _ hm)
    have hkey' : ∀ h ∈ rest, h.rule.pmatch decode req ≠ .keyError :=
      fun h hm => hkey h (List.mem_cons_of_mem _ hm)
    cases hm : h0.rule.pmatch decode req with
    | keyError => exact absurd hm (hkey h0 (List.mem_cons_self _ _))
    | noMatch w =>
      simp only [slowapiHandlers, hm, List.filterMap_cons, wrapFired]
      exact ih resp hpure' hkey'
    | matched args =>
      have hfn : (h0.fn args req).1 = req := hpure h0 (List.mem_cons_self _ _) args req
      simp only [slowapiHandlers, hm, List.filterMap_cons, wrapFired, hfn, List.foldl_cons]
      exact ih _ hpure' hkey'

theorem classifyStep_status (r : PathRule) (p : SigParam) :
    (classifyStep r p).status_code = r.status_code := by
  cases h : p.annot <;> simp [classifyStep, h]

theorem classify_foldl_status (l : List SigParam) (r : PathRule) :
    (l.foldl classifyStep r).status_code = r.status_code := by
  induction l generalizing r with
  | nil => rfl
  | cons p rest ih => rw [List.foldl_cons, ih, classifyStep_status]

theorem build_status_code (rule m : String) (sig : List SigParam) (c : Nat) :
    (PathRule.build rule m sig c).status_code = c := by
  unfold PathRule.build
  exact classify_foldl_status _ _

/-! The claim theorems. -/

/-- C1 (code bug): the claim says that for a route with a
raw-body-as-document (JSON/DictJSON-annotated) parameter, `match`
builds the document wrapper, returns None when its decoded value is
None, and never raises.  The code instead raises an uncaught `KeyError`
on every such matching request: line 123 reads
`self.param_attributes[self.json_body_param]`, but the JSON parameter
was routed away from `param_attributes` at construction.  Evaluated at
the failing input `POST /doc`: for every document collaborator the
match outcome is the `KeyError`, and indeed the JSON parameter name is
absent from `param_attributes`. -/
theorem json_body_match_keyerror :
    (∀ decode, jsonRule.pmatch decode jsonReq = .keyError)
    ∧ jsonRule.json_body_param = some "d"
    ∧ dget jsonRule.param_attributes "d" = none :=
  ⟨fun _ => rfl, rfl, rfl⟩

/-- C2 (code bug): the claim says a malformed declared content length
yields a 400-class response with an empty body.  In the code the
`except` branch's logging f-string reads the never-assigned local
`content_length`, so the adapter raises `UnboundLocalError` instead of
responding (first conjunct).  The oversized branch does respond `507`
with an empty body without invoking dispatch (second conjunct), and a
negative declared length such as `-5` — not a valid *non-negative*
integer — is *not* rejected with 400: dispatch is invoked with no body
(third conjunct). -/
theorem wsgi_bad_length_unbound_local :
    (∀ (mkReq : String → String → Option (List Nat) → Request)
        (dispatch : Request → Except PyErr Response),
        wsgiCall mkReq dispatch envBadLen = .error .unboundLocal)
    ∧ (∀ (mkReq : String → String → Option (List Nat) → Request)
        (dispatch : Request → Except PyErr Response),
        wsgiCall mkReq dispatch envHugeLen = .ok ("507 Insufficient Storage", [], []))
    ∧ (∀ (mkReq : String → String → Option (List Nat) → Request) (resp : Response),
        wsgiCall mkReq (fun _ => .ok resp) envNegLen
          = .ok (resp.get_status, resp.headers, resp.content)) :=
  ⟨fun _ _ => rfl, fun _ _ => rfl, fun _ _ => rfl⟩

/-- C3 counterexample: with sub-router B prepended first, sub-router A
prepended after it, own handler H, and appended sub-router C, the
dispatch order is A, B, H, C — `slowapi_prepend` inserts at the front
of the prepended list, so the most recently prepended runs first — and
not B, A, H, C as the claim states. -/
theorem prepend_order_counterexample :
    App.slowapi decode0 (composedR "B" "A" "H" "C") helloReq
      = .ok (helloReq, ⟨200, [], [.vStr "A", .vStr "B", .vStr "H", .vStr "C"]⟩)
    ∧ [PyVal.vStr "A", .vStr "B", .vStr "H", .vStr "C"]
      ≠ [PyVal.vStr "B", .vStr "A", .vStr "H", .vStr "C"] :=
  ⟨rfl, by decide⟩

set_option maxHeartbeats 1600000 in
/-- C3 amended: for a router R with own handler H, sub-router B
prepended first, sub-router A prepended after B, and sub-router C
appended, one matching dispatch runs the handlers in the order
A, B, H, C (most recently prepended first, then own handler, then
appended), and the partial responses are merged into the aggregate in
that same order. -/
theorem prepend_order_most_recent_first
    (decode : PyType → Option (List Nat) → Option PyVal) (b a h c : String) :
    App.slowapi decode (composedR b a h c) helloReq
      = .ok (helloReq, ⟨200, [], [.vStr a, .vStr b, .vStr h, .vStr c]⟩) := rfl

/-- C4: abort monotonicity — a match attempt on an aborted request
always fails (first conjunct); a whole dispatch of any router tree over
an aborted request contributes nothing and returns the empty aggregate
(second conjunct, covering all sub-routers at any depth); and in a
concrete traversal where the second of three handlers aborts, the
partial response merged before the abort ("one") remains in the
aggregate while the later handler and the appended sub-router
contribute nothing (third conjunct). -/
theorem abort_monotonic :
    (∀ (decode : PyType → Option (List Nat) → Option PyVal) (r : PathRule) (req : Request),
        req.aborted = true → r.pmatch decode req = .noMatch false)
    ∧ (∀ (decode : PyType → Option (List Nat) → Option PyVal) (a : App) (req : Request),
        req.aborted = true → App.slowapi decode a req = .ok (req, Response.empty))
    ∧ (∀ decode, App.slowapi decode abortApp helloReq
        = .ok (helloReq.abort, ⟨200, [], [.vStr "one"]⟩)) :=
  ⟨aborted_pmatch, aborted_slowapi, fun _ => rfl⟩

/-- Witness for `abort_monotonic` at concrete inputs. -/
theorem abort_monotonic_witness :
    PathRule.pmatch decode0 helloRule (helloReq.abort) = .noMatch false
    ∧ App.slowapi decode0 (labelApp "X") (helloReq.abort)
        = .ok (helloReq.abort, Response.empty) :=
  ⟨abort_monotonic.1 decode0 helloRule helloReq.abort rfl,
   abort_monotonic.2.1 decode0 (labelApp "X") helloReq.abort rfl⟩

/-- C5: the length policy of `PathRule.match` — for a non-aborted
request with the right method, a longer request is rejected unless the
descriptor has a wildcard tail, and a shorter request is rejected
unless every remaining pattern position is a placeholder (general
conjuncts); concretely, `/files/\x7b*\x7d` matches `/files/a/b/c` and
rejects `/other/a/b/c` (literal mismatch at position 0), and a
one-segment-short request against `/s/\x7bx\x7d` matches with the
placeholder resolved from the declared default. -/
theorem length_policy_and_wildcard :
    (∀ (decode : PyType → Option (List Nat) → Option PyVal) (r : PathRule) (req : Request),
        req.aborted = false → req.method = r.method →
        ((req.path.length > r.path.length → r.take_extra_path = false →
            r.pmatch decode req = .noMatch false)
         ∧ (req.path.length < r.path.length →
            (r.path.drop req.path.length).all Option.isNone = false →
            r.pmatch decode req = .noMatch false)))
    ∧ (∀ decode, filesRule.pmatch decode filesReq = .matched []
        ∧ filesRule.pmatch decode otherReq = .noMatch false
        ∧ shortRule.pmatch decode shortReq = .matched [("x", .vStr "d")]) := by
  constructor
  · intro decode r req hab hm
    constructor
    · intro hgt htep
      have hne : ¬ req.path.length = r.path.length := by omega
      simp [PathRule.pmatch, hab, hm, lengthCheck, hne, hgt, htep]
    · intro hlt hall
      have hne : ¬ req.path.length = r.path.length := by omega
      have hngt : ¬ req.path.length > r.path.length := by omega
      simp [PathRule.pmatch, hab, hm, lengthCheck, hne, hngt, hall]
  · exact fun decode => ⟨rfl, rfl, rfl⟩

/-- Witness for `length_policy_and_wildcard` at a concrete input: a
two-segment request against the one-segment `/hello` descriptor (no
wildcard tail) does not match. -/
theorem length_policy_witness :
    PathRule.pmatch decode0 helloRule ⟨"GET", ["hello", "extra"], [], none, false⟩
      = .noMatch false :=
  ((length_policy_and_wildcard.1 decode0 helloRule
      ⟨"GET", ["hello", "extra"], [], none, false⟩ rfl rfl).1 (by decide) rfl)

/-- C6 counterexample: for a parameter declaring type `str` with the
integer default `5`, a matching request in which the parameter is
absent from the working map binds the *coerced* default `"5"`, not
"exactly the declared default" `5` as the claim states — the code
applies the declared type constructor to any non-None value, defaults
included. -/
theorem default_coerced_counterexample :
    PathRule.pmatch decode0 defRule defReq = .matched [("x", .vStr "5")]
    ∧ PyVal.vStr "5" ≠ PyVal.vInt 5 :=
  ⟨rfl, by decide⟩

/-- C6 amended: for a plain parameter absent from the working map, the
declared default is the starting value, and when there is no default
the bound value is None; type coercion via the declared type's
constructor is applied to *every* non-None value — to raw string values
found in the path/query map and equally to non-None defaults — so the
bound value is exactly the declared default only when the default is
None or no type is declared; the last conjunct ties the per-parameter
rule `boundValue` to the plain-parameter loop of `PathRule.match`. -/
theorem default_binding_with_coercion :
    (∀ (attr : Param), attr.default = none → boundValue attr none = some .vNone)
    ∧ (∀ (attr : Param) (d : PyVal), attr.default = some d → attr.annot = .empty →
        boundValue attr none = some d)
    ∧ (∀ (attr : Param) (d : PyVal), attr.default = some d → d ≠ .vNone →
        attr.annot ≠ .empty → boundValue attr none = coerce attr.annot d)
    ∧ (∀ (attr : Param) (s : String), attr.annot ≠ .empty →
        boundValue attr (some s) = coerce attr.annot (.vStr s))
    ∧ (∀ (params : List (String × String)) (attrs : List (String × Param))
        (kwargs : List (String × PyVal)) (pname : String) (attr : Param),
        (attrs.map Prod.fst).Nodup → (pname, attr) ∈ attrs →
        bindPlain params attrs [] = some kwargs →
        some (dget kwargs pname) = (boundValue attr (dget params pname)).map some) := by
  refine ⟨?_, ?_, ?_, ?_, fun params attrs kwargs pname attr hnd hmem hrun =>
    bindPlain_dget_mem params attrs [] kwargs pname attr hnd hmem hrun⟩
  · intro attr h
    simp [boundValue, h]
  · intro attr d hd hann
    simp [boundValue, hd, hann]
  · intro attr d hd hne hann
    simp [boundValue, hd, hne, hann]
  · intro attr s hann
    simp [boundValue, hann]

/-- Witness for `default_binding_with_coercion` at a concrete input:
the `str`-typed parameter with default `5` binds the coerced default. -/
theorem default_binding_witness :
    boundValue ⟨.strT, some (.vInt 5)⟩ none = coerce .strT (.vInt 5) :=
  default_binding_with_coercion.2.2.1 ⟨.strT, some (.vInt 5)⟩ (.vInt 5) rfl
    (by decide) (by decide)

/-- C7: a coercion failure is swallowed, not raised — whenever the
earlier stages of `PathRule.match` pass and some plain parameter's
value fails coercion, the whole match returns "no match" with the
warning flag set (general conjunct); concretely, the `int`-typed
descriptor fed the non-numeric segment "abc" yields `noMatch` with a
logged warning, and dispatch continues to the remaining descriptor,
which matches and contributes its output. -/
theorem coercion_failure_swallowed :
    (∀ (decode : PyType → Option (List Nat) → Option PyVal) (r : PathRule) (req : Request)
        (params : List (String × String)),
        req.aborted = false → req.method = r.method → lengthCheck r req = true →
        workingParams r req = .ok (some params) →
        (∃ pa ∈ r.param_attributes, boundValue pa.2 (dget params pa.1) = none) →
        r.pmatch decode req = .noMatch true)
    ∧ (∀ decode, intRule.pmatch decode contReq = .noMatch true)
    ∧ (∀ decode, App.slowapi decode contApp contReq
        = .ok (contReq, ⟨200, [], [.vStr "second"]⟩)) := by
  refine ⟨?_, fun _ => rfl, fun _ => rfl⟩
  intro decode r req params hab hm hlen hwp hex
  simp [PathRule.pmatch, hab, hm, hlen, hwp,
    bindPlain_fail params r.param_attributes [] hex]

/-- Witness for `coercion_failure_swallowed` at a concrete input. -/
theorem coercion_failure_witness :
    PathRule.pmatch decode0 intRule contReq = .noMatch true :=
  coercion_failure_swallowed.1 decode0 intRule contReq [("n", "abc")] rfl rfl rfl rfl
    (by decide)

/-- C8: the working value map overlays the request's query parameters
on top of the path-captured values, so the query wins on any key
collision (first conjunct, for a query map with unique keys); the map
fed to the plain-parameter loop is exactly `dupdate captured query`
(second conjunct); and the pattern `\x7bx\x7d` with an `int`-typed
parameter matched against path `/5` with query `x=9` binds `x` to the
coerced form of "9". -/
theorem query_overrides_path :
    (∀ (p q : List (String × String)) (k : String),
        (q.map Prod.fst).Nodup → (dget q k).isSome = true →
        dget (dupdate p q) k = dget q k)
    ∧ (∀ (r : PathRule) (req : Request) (captured : List (String × String)),
        captureSegs r req.path 0 [] = .ok (some captured) →
        workingParams r req = .ok (some (dupdate captured req.query)))
    ∧ (∀ decode, xRule.pmatch decode xReq = .matched [("x", .vInt 9)]) := by
  refine ⟨fun p q k => dget_dupdate_right p q k, ?_, fun _ => rfl⟩
  intro r req captured hc
  simp [workingParams, hc]

/-- Witness for `query_overrides_path` at a concrete input: a
path-captured `x = "5"` overlaid by query `x = "9"`. -/
theorem query_overrides_path_witness :
    dget (dupdate [("x", "5")] [("x", "9")]) "x" = dget [("x", "9")] "x" :=
  query_overrides_path.1 [("x", "5")] [("x", "9")] "x" (by decide) (by decide)

/-- C9: dispatch is not first-match-wins — for request-preserving
handlers and descriptors that do not hit the JSON-parameter `KeyError`,
the own-handler loop evaluates every descriptor in declaration order
and merges, in that same order, one partial response per matching
descriptor, wrapped with that descriptor's default status code (general
conjunct, via `wrapFired`); concretely, two descriptors both matching
`GET /hello` both fire and both outputs accumulate. -/
theorem all_matching_handlers_fire :
    (∀ (decode : PyType → Option (List Nat) → Option PyVal) (hs : List HandlerEntry)
        (req : Request),
        (∀ h ∈ hs, ∀ args r, (h.fn args r).1 = r) →
        (∀ h ∈ hs, h.rule.pmatch decode req ≠ .keyError) →
        App.slowapi decode (.mk hs [] []) req
          = .ok (req, (hs.filterMap (wrapFired decode req)).foldl Response.appendResp
              Response.empty))
    ∧ (∀ decode, App.slowapi decode (.mk multiHs [] []) helloReq
        = .ok (helloReq, ⟨200, [], [.vStr "m1", .vStr "m2"]⟩)) := by
  refine ⟨?_, fun _ => rfl⟩
  intro decode hs req hpure hkey
  have h1 : slowapiList decode [] req Response.empty = .ok (req, Response.empty) := rfl
  simp only [App.slowapi, h1, bind, Except.bind]
  rw [slowapiHandlers_spec decode hs req Response.empty hpure hkey]
  rfl

/-- Witness for `all_matching_handlers_fire` at a concrete input. -/
theorem all_matching_handlers_witness :
    App.slowapi decode0 (.mk multiHs [] []) helloReq
      = .ok (helloReq, (multiHs.filterMap (wrapFired decode0 helloReq)).foldl
          Response.appendResp Response.empty) :=
  all_matching_handlers_fire.1 decode0 multiHs helloReq
    (by
      intro h hm args r
      simp only [multiHs, List.mem_cons, List.not_mem_nil, or_false] at hm
      rcases hm with rfl | rfl <;> rfl)
    (by
      intro h hm
      simp only [multiHs, List.mem_cons, List.not_mem_nil, or_false] at hm
      rcases hm with rfl | rfl <;> decide)

/-- C10: the attachment decorators applied without an explicit
`status_code` argument compile descriptors whose default status code is
201 for `post` and 200 for `get` and `delete` (general conjunct, for
every rule string and signature); on a match this is the status carried
by the partial response wrapped around the handler's return value, as
shown by `wrapFired` and by the dispatched aggregate for a POST
route. -/
theorem decorator_default_status :
    (∀ (ruleStr : String) (sig : List SigParam),
        (post ruleStr sig).status_code = 201
        ∧ (get ruleStr sig).status_code = 200
        ∧ (delete ruleStr sig).status_code = 200)
    ∧ (∀ decode, wrapFired decode postReq postHandler = some ⟨201, [], [.vStr "made"]⟩
        ∧ App.slowapi decode (.mk [postHandler] [] []) postReq
            = .ok (postReq, ⟨201, [], [.vStr "made"]⟩)) :=
  ⟨fun ruleStr sig =>
    ⟨build_status_code ruleStr "POST" sig 201,
     build_status_code ruleStr "GET" sig 200,
     build_status_code ruleStr "DELETE" sig 200⟩,
   fun _ => ⟨rfl, rfl⟩⟩

end Slowapi
